import Mathlib

/-!
Shallow embedding of the retrieval subsystem of the `music-library` service:
the song data model (`internal/models/song.go`), the PostgreSQL-backed
repository (`internal/repository`, in particular `GetSongPaginated`,
`GetSongTextPaginated` and `checkRowsAffected`) and the Redis-backed service
layer (`internal/services/song_servise.go`: `GetSong`, `UpdateSong`,
`DeleteSong`).

Machine integers of the Go code are modelled as `Int`/`Nat` (no value in the
embedded paths can overflow 64-bit in the scenarios the theorems quantify
over), the SQL store as a list of rows plus an availability flag, and the
Redis cache as a partial map from key strings to serialized payloads plus an
availability flag.  Every service operation additionally returns the list of
externally visible cache/store events it performed, in order, so that
ordering claims ("invalidate before the store mutation") can be stated.
-/

/-- The `models.Song` struct (`internal/models/song.go`), fields in
declaration order with their JSON keys `id`, `group_name`, `song_name`,
`release_date`, `text`, `link`. -/
structure Song where
  id : String
  groupName : String
  songName : String
  releaseDate : String
  text : String
  link : String
deriving DecidableEq, Repr

/-- Error kinds of the subsystem.  The Go code carries errors as wrapped
`error` values whose message identifies the kind (`"no song found with id
%s"` for `notFound`, transport/connection failures for `storeUnavailable`,
`"group name and song name cannot be empty"` for `invalidInput`); wrapping
with `fmt.Errorf` preserves the kind, which is what the embedding keeps. -/
inductive Err where
  | notFound
  | storeUnavailable
  | invalidInput
deriving DecidableEq, Repr

/-- Externally visible side effects of a service call, in execution order:
Redis `Del`/`Set` (recorded even when Redis is unavailable — the call is
still attempted) and the SQL statements issued through the repository. -/
inductive Event where
  | cacheDel (key : String)
  | cacheSet (key : String) (payload : String) (ttlMinutes : Nat)
  | storeGet (id : String)
  | storeUpdate (id : String)
  | storeDelete (id : String)
deriving DecidableEq, Repr

/-- The TTL passed to `redis.Set` in `GetSong` and `UpdateSong`:
`10*time.Minute`, recorded in minutes. -/
def cacheTTL : Nat := 10

/-- The `generateID` scheme of `internal/models/song.go`
(`fmt.Sprintf("song-%d", time.Now().UnixNano())`).  The time-dependent value
is an oracle input to the embedding: operations that call `generateID`
take the generated string as an explicit argument. -/
def generateID (unixNano : Nat) : String :=
  "song-" ++ toString unixNano

/-- `models.NewSong`: rejects an empty group or song name, otherwise builds
a `Song` with a freshly generated ID (`genId` is the value `generateID`
returns in this execution). -/
def newSong (genId groupName songName text link releaseDate : String) :
    Except Err Song :=
  if groupName = "" ∨ songName = "" then
    .error .invalidInput
  else
    .ok ⟨genId, groupName, songName, releaseDate, text, link⟩

section JsonCodec

/-!
Model of `encoding/json` restricted to what the service uses: `Marshal` of a
`*models.Song` (a JSON object with the six string fields in declaration
order, or the literal `null` for a nil pointer) and `Unmarshal` into a
`*models.Song`, which succeeds on `null` (yielding a nil pointer) and on the
object format `Marshal` produces, and is treated as failing on anything
else.  String contents are escaped with a backslash before `"` and `\`.
-/

/-- JSON string-body escaping: prefix `"` and `\` with a backslash. -/
def quoteAux : List Char → List Char
  | [] => []
  | c :: cs =>
    if c = '"' ∨ c = '\\' then '\\' :: c :: quoteAux cs
    else c :: quoteAux cs

/-- Parse a JSON string body up to its closing quote, undoing `quoteAux`.
Returns the decoded characters and the rest of the input. -/
def parseStrAux : List Char → Option (List Char × List Char)
  | [] => none
  | c :: cs =>
    if c = '"' then some ([], cs)
    else if c = '\\' then
      match cs with
      | [] => none
      | d :: ds => (parseStrAux ds).map fun p => (d :: p.1, p.2)
    else (parseStrAux cs).map fun p => (c :: p.1, p.2)

/-- Consume an expected literal character sequence. -/
def dropLit : List Char → List Char → Option (List Char)
  | [], rest => some rest
  | _ :: _, [] => none
  | c :: cs, d :: ds => if d = c then dropLit cs ds else none

def litId : List Char := "\x7b\"id\":\"".data
def litGroup : List Char := ",\"group_name\":\"".data
def litSongName : List Char := ",\"song_name\":\"".data
def litRelease : List Char := ",\"release_date\":\"".data
def litText : List Char := ",\"text\":\"".data
def litLink : List Char := ",\"link\":\"".data
def litEnd : List Char := "\x7d".data

/-- A quoted field value: escaped characters followed by the closing quote
(the opening quote is part of the preceding literal). -/
def quotedField (s : String) : List Char :=
  quoteAux s.data ++ ['"']

/-- Characters of `json.Marshal` of a non-nil `*models.Song`. -/
def marshalSongChars (s : Song) : List Char :=
  litId ++ quotedField s.id ++ litGroup ++ quotedField s.groupName ++
    litSongName ++ quotedField s.songName ++ litRelease ++
    quotedField s.releaseDate ++ litText ++ quotedField s.text ++
    litLink ++ quotedField s.link ++ litEnd

/-- `json.Marshal` of a `*models.Song` pointer: `null` for nil. -/
def marshalSong : Option Song → String
  | none => "null"
  | some s => ⟨marshalSongChars s⟩

/-- Parse the object format produced by `marshalSongChars`. -/
def parseSongChars (l : List Char) : Option Song :=
  (dropLit litId l).bind fun r1 =>
  (parseStrAux r1).bind fun p1 =>
  (dropLit litGroup p1.2).bind fun r2 =>
  (parseStrAux r2).bind fun p2 =>
  (dropLit litSongName p2.2).bind fun r3 =>
  (parseStrAux r3).bind fun p3 =>
  (dropLit litRelease p3.2).bind fun r4 =>
  (parseStrAux r4).bind fun p4 =>
  (dropLit litText p4.2).bind fun r5 =>
  (parseStrAux r5).bind fun p5 =>
  (dropLit litLink p5.2).bind fun r6 =>
  (parseStrAux r6).bind fun p6 =>
  (dropLit litEnd p6.2).bind fun r7 =>
  if r7 = [] then
    some ⟨⟨p1.1⟩, ⟨p2.1⟩, ⟨p3.1⟩, ⟨p4.1⟩, ⟨p5.1⟩, ⟨p6.1⟩⟩
  else none

/-- `json.Unmarshal` of a cache payload into a `*models.Song`:
`some none` is a successful parse of `null` (a nil pointer), `some (some s)`
a successful parse of a song object, `none` a deserialization failure. -/
def unmarshalSong (s : String) : Option (Option Song) :=
  if s = "null" then some none
  else
    match parseSongChars s.data with
    | some song => some (some song)
    | none => none

end JsonCodec

theorem parseStrAux_closing (cs : List Char) :
    parseStrAux ('"' :: cs) = some ([], cs) := by
  rw [parseStrAux.eq_def]
  simp

theorem parseStrAux_esc (d : Char) (ds : List Char) :
    parseStrAux ('\\' :: d :: ds) =
      (parseStrAux ds).map fun p => (d :: p.1, p.2) := by
  rw [parseStrAux.eq_def]
  simp

theorem parseStrAux_plain {c : Char} (h1 : c ≠ '"') (h2 : c ≠ '\\')
    (cs : List Char) :
    parseStrAux (c :: cs) = (parseStrAux cs).map fun p => (c :: p.1, p.2) := by
  rw [parseStrAux.eq_def]
  simp [h1, h2]

theorem parseStrAux_quoteAux (cs rest : List Char) :
    parseStrAux (quoteAux cs ++ '"' :: rest) = some (cs, rest) := by
  induction cs with
  | nil => simp [quoteAux, parseStrAux_closing]
  | cons c cs ih =>
    by_cases hc : c = '"' ∨ c = '\\'
    · simp only [quoteAux, if_pos hc, List.cons_append]
      rw [parseStrAux_esc, ih]
      rfl
    · have h1 : c ≠ '"' := fun h => hc (Or.inl h)
      have h2 : c ≠ '\\' := fun h => hc (Or.inr h)
      simp only [quoteAux, if_neg hc, List.cons_append]
      rw [parseStrAux_plain h1 h2, ih]
      rfl

theorem dropLit_append (l r : List Char) : dropLit l (l ++ r) = some r := by
  induction l with
  | nil => simp [dropLit]
  | cons c cs ih => simp [dropLit, ih]

theorem dropLit_self (l : List Char) : dropLit l l = some [] := by
  have h := dropLit_append l []
  simpa using h

theorem marshalSong_ne_null (s : Song) : marshalSong (some s) ≠ "null" := by
  intro h
  have h2 : (marshalSong (some s)).data = "null".data := by rw [h]
  simp [marshalSong, marshalSongChars, litId] at h2

theorem string_mk_data (s : String) : (⟨s.data⟩ : String) = s := rfl

theorem parseSongChars_marshal (s : Song) :
    parseSongChars (marshalSongChars s) = some s := by
  simp only [marshalSongChars, quotedField, parseSongChars, List.append_assoc,
    List.singleton_append, List.cons_append, List.nil_append, dropLit_append,
    Option.some_bind, parseStrAux_quoteAux, dropLit_self]
  simp only [if_true, string_mk_data]

theorem unmarshal_marshal (s : Song) :
    unmarshalSong (marshalSong (some s)) = some (some s) := by
  rw [unmarshalSong, if_neg (marshalSong_ne_null s)]
  have hd : (marshalSong (some s)).data = marshalSongChars s := rfl
  rw [hd, parseSongChars_marshal]

theorem unmarshal_null : unmarshalSong "null" = some none := rfl

/-- The SQL store: the `songs` table rows plus a transport-availability
flag (an unavailable store makes every `db.Exec`/`db.Query` fail, which the
repository surfaces as a `storeUnavailable` error). -/
structure StoreState where
  db : List Song
  available : Bool
deriving Repr

/-- The Redis cache: present payloads by key plus an availability flag.
An unavailable cache makes `Get` fail (treated like a miss by `GetSong`)
and turns `Set`/`Del` into no-ops whose errors the service swallows. -/
structure CacheState where
  entries : String → Option String
  available : Bool

/-- Combined external state seen by the service layer. -/
structure World where
  store : StoreState
  cache : CacheState

/-- `redis.Get(ctx, key).Result()`: `some payload` exactly when Redis is
reachable and the key is populated; a miss (`redis.Nil`) and an
unavailability error both yield a non-nil `err`, which `GetSong` treats
identically, so both collapse to `none`. -/
def cacheGetOp (c : CacheState) (key : String) : Option String :=
  if c.available then c.entries key else none

/-- `redis.Set(ctx, key, payload, ttl)`: stores the payload when Redis is
reachable, does nothing otherwise (the error is only logged). -/
def cacheSetOp (c : CacheState) (key payload : String) : CacheState :=
  if c.available then
    { c with entries := fun k => if k = key then some payload else c.entries k }
  else c

/-- `redis.Del(ctx, key)`: removes the key when Redis is reachable, does
nothing otherwise (the result is not even inspected by the service). -/
def cacheDelOp (c : CacheState) (key : String) : CacheState :=
  if c.available then
    { c with entries := fun k => if k = key then none else c.entries k }
  else c

/-- `GetSongRepository` (repository): `SELECT ... FROM songs WHERE id = $1`;
`sql.ErrNoRows` becomes the `notFound` error, transport failure
`storeUnavailable`. -/
def repoGetSong (st : StoreState) (id : String) : Except Err Song :=
  if st.available then
    match st.db.find? (fun r => r.id == id) with
    | some r => .ok r
    | none => .error .notFound
  else .error .storeUnavailable

/-- The number of rows the SQL `WHERE id = $1` clause touches
(`result.RowsAffected()` in `checkRowsAffected`). -/
def rowsAffected (st : StoreState) (id : String) : Nat :=
  st.db.countP (fun r => r.id == id)

/-- `UPDATE songs SET group_name = $1, song_name = $2, release_date = $3,
text = $4, link = $5 WHERE id = $6` applied to one row: every column except
`id` is overwritten. -/
def applyUpdate (song r : Song) : Song :=
  { r with
    groupName := song.groupName
    songName := song.songName
    releaseDate := song.releaseDate
    text := song.text
    link := song.link }

/-- `UpdateSongRepository`: run the `UPDATE`, then `checkRowsAffected`
(zero affected rows becomes the `notFound` error). -/
def repoUpdateSong (st : StoreState) (id : String) (song : Song) :
    Except Err StoreState :=
  if st.available then
    if rowsAffected st id = 0 then .error .notFound
    else
      .ok { st with
            db := st.db.map fun r => if r.id == id then applyUpdate song r else r }
  else .error .storeUnavailable

/-- `DeleteSongRepository`: run `DELETE FROM songs WHERE id = $1`, then
`checkRowsAffected`. -/
def repoDeleteSong (st : StoreState) (id : String) : Except Err StoreState :=
  if st.available then
    if rowsAffected st id = 0 then .error .notFound
    else .ok { st with db := st.db.filter fun r => !(r.id == id) }
  else .error .storeUnavailable

/-- `SongService.GetSong` (`song_servise.go:86-115`), the cache-aside read:
try `redis.Get` on key `"song:"+id`; on a hit that unmarshals, return the
(possibly nil) deserialized song without touching the store; otherwise fall
back to `GetSongRepository`, and on store success best-effort `redis.Set`
with the 10-minute TTL.  Returns the result, the new world, and the event
trace. -/
def getSong (w : World) (id : String) :
    Except Err (Option Song) × World × List Event :=
  let key := "song:" ++ id
  let fallback :=
    match repoGetSong w.store id with
    | .error e => (.error e, w, [.storeGet id])
    | .ok song =>
      let payload := marshalSong (some song)
      (.ok (some song),
       { w with cache := cacheSetOp w.cache key payload },
       [.storeGet id, .cacheSet key payload cacheTTL])
  match cacheGetOp w.cache key with
  | some payload =>
    match unmarshalSong payload with
    | some songOpt => (.ok songOpt, w, [])
    | none => fallback
  | none => fallback

/-- `SongService.UpdateSong` (`song_servise.go:130-153`): delete the cache
key, build the new `Song` with `models.NewSong` (fresh generated ID
`genId`), run the repository update, and on success `redis.Set` the new
payload with the 10-minute TTL.  Returns `none` on success. -/
def updateSong (w : World) (genId id : String) (upd : Song) :
    Option Err × World × List Event :=
  let key := "song:" ++ id
  let c1 := cacheDelOp w.cache key
  match newSong genId upd.groupName upd.songName upd.text upd.link upd.releaseDate with
  | .error e => (some e, { w with cache := c1 }, [.cacheDel key])
  | .ok fullSong =>
    match repoUpdateSong w.store id fullSong with
    | .error e => (some e, { store := w.store, cache := c1 }, [.cacheDel key, .storeUpdate id])
    | .ok st1 =>
      let payload := marshalSong (some fullSong)
      (none,
       { store := st1, cache := cacheSetOp c1 key payload },
       [.cacheDel key, .storeUpdate id, .cacheSet key payload cacheTTL])

/-- `SongService.DeleteSong` (`song_servise.go:155-169`): run the
repository delete first; only on success delete the cache key. -/
def deleteSong (w : World) (id : String) : Option Err × World × List Event :=
  match repoDeleteSong w.store id with
  | .error e => (some e, w, [.storeDelete id])
  | .ok st1 =>
    let key := "song:" ++ id
    (none, { store := st1, cache := cacheDelOp w.cache key }, [.storeDelete id, .cacheDel key])

/-- A value bound as a positional SQL parameter (`args` in
`GetSongPaginated`): a Go string or int passed to `db.Query`. -/
inductive SqlArg where
  | str (s : String)
  | int (n : Int)
deriving DecidableEq, Repr

/-- The `map[string]string` filter: `filter k = some v` models `v, ok :=
filter[k]` with `ok` true.  Only the keys `"group"`, `"song"` and `"text"`
are ever consulted. -/
def FilterMap := String → Option String

/-- The constant head of the query built by `GetSongPaginated`
(`part_001:247-248`), whitespace of the Go raw string literal included. -/
def baseQuery : String :=
  "SELECT id, group_name, song_name, text, link, release_date \n\t          FROM songs WHERE 1=1"

/-- The query text and bound-argument list built by `GetSongPaginated`
(`part_001:246-270`): one `AND` predicate per recognized key present in the
filter, checked in the fixed order `group`, `song`, `text`, with `argID`
numbering the placeholders consecutively from `$1`, then the `ORDER BY
release_date DESC LIMIT $n OFFSET $n+1` tail with `pageSize` and
`(page-1)*pageSize` appended to the arguments. -/
def getSongPaginatedQuery (filter : FilterMap) (page pageSize : Int) :
    String × List SqlArg :=
  let query := baseQuery
  let args : List SqlArg := []
  let argID : Nat := 1
  let (query, args, argID) :=
    match filter "group" with
    | some group =>
      (query ++ " AND group_name ILIKE $" ++ toString argID,
       args ++ [SqlArg.str ("%" ++ group ++ "%")], argID + 1)
    | none => (query, args, argID)
  let (query, args, argID) :=
    match filter "song" with
    | some song =>
      (query ++ " AND song_name ILIKE $" ++ toString argID,
       args ++ [SqlArg.str ("%" ++ song ++ "%")], argID + 1)
    | none => (query, args, argID)
  let (query, args, argID) :=
    match filter "text" with
    | some text =>
      (query ++ " AND to_tsvector(\x27russian\x27, text) @@ plainto_tsquery(\x27russian\x27, $"
         ++ toString argID ++ ")",
       args ++ [SqlArg.str text], argID + 1)
    | none => (query, args, argID)
  (query ++ " ORDER BY release_date DESC LIMIT $" ++ toString argID
     ++ " OFFSET $" ++ toString (argID + 1),
   args ++ [SqlArg.int pageSize, SqlArg.int ((page - 1) * pageSize)])

/-- Spec-side description of one filter predicate: the SQL text before the
positional placeholder, the text after it, and the bound argument. -/
structure PredSpec where
  before : String
  after : String
  arg : SqlArg
deriving DecidableEq, Repr

/-- Modelled from the spec ("Each active filter key appends one predicate,
conjoined", keys `group`/`song`/`text` in that fixed order): the list of
predicates a filter should contribute. -/
def specPreds (filter : FilterMap) : List PredSpec :=
  (match filter "group" with
   | some g => [⟨" AND group_name ILIKE ", "", .str ("%" ++ g ++ "%")⟩]
   | none => []) ++
  (match filter "song" with
   | some s => [⟨" AND song_name ILIKE ", "", .str ("%" ++ s ++ "%")⟩]
   | none => []) ++
  (match filter "text" with
   | some t => [⟨" AND to_tsvector(\x27russian\x27, text) @@ plainto_tsquery(\x27russian\x27, ",
                ")", .str t⟩]
   | none => [])

/-- Modelled from the spec ("dynamic predicate construction must preserve
parameter-index ordering exactly matching argument order", "ordered by
release date descending"): assemble a query whose `i`-th placeholder `$i`
corresponds to the `i`-th bound argument, with `LIMIT`/`OFFSET` bound last,
in that order. -/
def specAssemble (preds : List PredSpec) (page pageSize : Int) :
    String × List SqlArg :=
  let n := preds.length
  (baseQuery ++
     String.join ((preds.enum).map fun p =>
       p.2.before ++ "$" ++ toString (p.1 + 1) ++ p.2.after) ++
     " ORDER BY release_date DESC LIMIT $" ++ toString (n + 1)
     ++ " OFFSET $" ++ toString (n + 2),
   preds.map (fun p => p.arg) ++
     [SqlArg.int pageSize, SqlArg.int ((page - 1) * pageSize)])

/-- Left-to-right split of a character list on the two-character delimiter
`"\n\n"` (accumulator holds the current verse reversed), modelling
PostgreSQL `string_to_array(text, E'\n\n')`. -/
def splitVersesAux : List Char → List Char → List String
  | [], acc => [String.mk acc.reverse]
  | '\n' :: '\n' :: rest, acc => String.mk acc.reverse :: splitVersesAux rest []
  | c :: rest, acc => splitVersesAux rest (c :: acc)

/-- The verses of a lyrics text: its blank-line-separated segments. -/
def splitVerses (s : String) : List String :=
  splitVersesAux s.data []

/-- `GetSongTextPaginated` (`part_001:289-309`): `SELECT
unnest(string_to_array(text, E'\n\n')) AS verse FROM songs WHERE id = $1
LIMIT $2 OFFSET $3`.  Each row whose id matches contributes its
blank-line-separated verses in order; the window `OFFSET (page-1)*pageSize
LIMIT pageSize` of that row set is returned.  (The HTTP handler guarantees
`page ≥ 1` and `pageSize ≥ 1`; `Int.toNat` clamps values outside that
domain.) -/
def getSongTextPaginated (st : StoreState) (id : String) (page pageSize : Int) :
    Except Err (List String) :=
  if st.available then
    let verses := (st.db.filter fun r => r.id == id).flatMap fun r =>
      splitVerses r.text
    .ok ((verses.drop ((page - 1) * pageSize).toNat).take pageSize.toNat)
  else .error .storeUnavailable

/-- Sample catalog row used by concrete witnesses. -/
def sampleSong : Song := ⟨"1", "g", "s", "2020", "A\n\nB\n\nC", "l"⟩

/-- Sample store holding exactly `sampleSong`, transport available. -/
def sampleStore : StoreState := ⟨[sampleSong], true⟩

/-- An available cache with no entries. -/
def emptyCache : CacheState := ⟨fun _ => none, true⟩

/-- Sample world: `sampleStore` plus an empty available cache. -/
def sampleWorld : World := ⟨sampleStore, emptyCache⟩

/-- Sample update payload sent by a client (its `id` field is ignored by
`UpdateSong`, which regenerates the ID via `models.NewSong`). -/
def updInput : Song := ⟨"u-id", "G2", "S2", "2021", "T2", "L2"⟩

/-- An event `e1` occurs strictly before `e2` in the trace `tr`. -/
def occursBefore (tr : List Event) (e1 e2 : Event) : Prop :=
  ∃ i j : Nat, i < j ∧ tr.get? i = some e1 ∧ tr.get? j = some e2

theorem find?_map_applyUpdate (l : List Song) (id : String) (u : Song)
    (h : l.countP (fun r => r.id == id) ≠ 0) :
    ∃ r, (l.map fun r => if r.id == id then applyUpdate u r else r).find?
        (fun x => x.id == id) = some r
      ∧ r.id = id ∧ r.groupName = u.groupName ∧ r.songName = u.songName
      ∧ r.releaseDate = u.releaseDate ∧ r.text = u.text ∧ r.link = u.link := by
  induction l with
  | nil => simp at h
  | cons a l ih =>
    by_cases ha : a.id = id
    · refine ⟨applyUpdate u a, ?_, ?_⟩
      · simp [List.find?_cons_of_pos, applyUpdate, ha]
      · simp [applyUpdate, ha]
    · have hcount : (a :: l).countP (fun r => r.id == id)
          = l.countP (fun r => r.id == id) := by
        rw [List.countP_cons_of_neg]
        simp [ha]
      rw [hcount] at h
      obtain ⟨r, hr, hrest⟩ := ih h
      refine ⟨r, ?_, hrest⟩
      simp only [List.map_cons]
      rw [if_neg (by simp [ha]), List.find?_cons_of_neg _ (by simp [ha]), hr]

/-- C1: for every filter map and page/pageSize, the query built by
`GetSongPaginated` equals the spec-side assembly: one predicate per
recognized key present, in the fixed order `group`, `song`, `text`,
conjoined with `AND`; the `i`-th positional placeholder `$i` is bound to
the `i`-th appended argument, with `pageSize` and `(page-1)*pageSize`
bound last, in that order; and the query orders by `release_date DESC`. -/
theorem getSongPaginated_query_spec (filter : FilterMap) (page pageSize : Int) :
    getSongPaginatedQuery filter page pageSize
      = specAssemble (specPreds filter) page pageSize := by
  rcases hg : filter "group" with _ | g <;>
  rcases hs : filter "song" with _ | s <;>
  rcases ht : filter "text" with _ | t <;>
  simp only [getSongPaginatedQuery, specPreds, specAssemble, hg, hs, ht,
    List.nil_append, List.append_nil, List.cons_append, List.singleton_append,
    List.enum, List.enumFrom, List.map, List.length, String.join, List.foldl] <;>
  refine Prod.ext ?_ ?_ <;>
  simp [String.ext_iff, String.data_append, List.append_assoc]

/-- C8: the SQL text built by `GetSongPaginated` depends only on which
filter keys are present, never on the filter values (or the page numbers):
two filter maps with the same key set yield identical query strings, the
values reaching the database only through the bound-argument list. -/
theorem query_text_filter_value_independent (f1 f2 : FilterMap)
    (p1 s1 p2 s2 : Int) (h : ∀ k, (f1 k).isSome = (f2 k).isSome) :
    (getSongPaginatedQuery f1 p1 s1).1 = (getSongPaginatedQuery f2 p2 s2).1 := by
  rcases h1 : f1 "group" with _ | g1 <;> rcases h2 : f2 "group" with _ | g2 <;>
  rcases h3 : f1 "song" with _ | s3 <;> rcases h4 : f2 "song" with _ | s4 <;>
  rcases h5 : f1 "text" with _ | t5 <;> rcases h6 : f2 "text" with _ | t6 <;>
  first
    | (exfalso; have hx := h "group"; rw [h1, h2] at hx; simp at hx; done)
    | (exfalso; have hx := h "song"; rw [h3, h4] at hx; simp at hx; done)
    | (exfalso; have hx := h "text"; rw [h5, h6] at hx; simp at hx; done)
    | simp [getSongPaginatedQuery, h1, h2, h3, h4, h5, h6]

/-- Filter with `group = "Muse"`, used as a C8 witness input. -/
def filterA : FilterMap := fun k => if k = "group" then some "Muse" else none

/-- Filter with the same key set as `filterA` but an injection-shaped
value, used as a C8 witness input. -/
def filterB : FilterMap :=
  fun k => if k = "group" then some "x\x27; DROP TABLE songs --" else none

theorem query_text_filter_value_independent_witness :
    (getSongPaginatedQuery filterA 1 10).1 = (getSongPaginatedQuery filterB 2 5).1 :=
  query_text_filter_value_independent filterA filterB 1 10 2 5
    (by intro k; by_cases hk : k = "group" <;> simp [filterA, filterB, hk])

/-- C5: with a unique row for `id`, verse pagination returns exactly the
window `[offset, offset+pageSize)` of the zero-numbered verse sequence
obtained by splitting the row's lyrics on `"\n\n"`, where `offset =
(page-1)*pageSize`: position `j` of the result is verse `offset + j` for
`j < pageSize`, and the window past the last verse is empty, not an
error. -/
theorem findLyricsVerses_window (st : StoreState) (id : String)
    (page pageSize : Int) (r : Song)
    (hav : st.available = true)
    (hr : st.db.filter (fun s => s.id == id) = [r])
    (hp : 1 ≤ page) (hsz : 1 ≤ pageSize) :
    getSongTextPaginated st id page pageSize =
      .ok (((splitVerses r.text).drop ((page - 1) * pageSize).toNat).take pageSize.toNat)
    ∧ ∀ j : Nat,
        (((splitVerses r.text).drop ((page - 1) * pageSize).toNat).take pageSize.toNat).get? j
          = if j < pageSize.toNat
            then (splitVerses r.text).get? (((page - 1) * pageSize).toNat + j)
            else none := by
  constructor
  · simp [getSongTextPaginated, hav, hr]
  · intro j
    by_cases hj : j < pageSize.toNat
    · rw [if_pos hj, List.get?_take hj, List.get?_drop]
    · rw [if_neg hj]
      apply List.get?_eq_none.mpr
      have ht := List.length_take pageSize.toNat
        ((splitVerses r.text).drop ((page - 1) * pageSize).toNat)
      omega

theorem findLyricsVerses_window_witness :
    getSongTextPaginated sampleStore "1" 1 2 = .ok ["A", "B"]
    ∧ getSongTextPaginated sampleStore "1" 2 2 = .ok ["C"]
    ∧ getSongTextPaginated sampleStore "1" 3 2 = .ok [] := by
  refine ⟨?_, ?_, ?_⟩
  · rw [(findLyricsVerses_window sampleStore "1" 1 2 sampleSong rfl rfl
      (by decide) (by decide)).1]
    rfl
  · rw [(findLyricsVerses_window sampleStore "1" 2 2 sampleSong rfl rfl
      (by decide) (by decide)).1]
    rfl
  · rw [(findLyricsVerses_window sampleStore "1" 3 2 sampleSong rfl rfl
      (by decide) (by decide)).1]
    rfl

/-- C6: for an id matching no row, verse pagination returns the empty
sequence with no error, for every page and pageSize, while `GetSong` on
the same id (with nothing cached for it) returns `notFound`. -/
theorem missing_id_empty_result (w : World) (id : String) (page pageSize : Int)
    (hav : w.store.available = true)
    (hmiss : ∀ r ∈ w.store.db, ¬ r.id = id)
    (hcache : cacheGetOp w.cache ("song:" ++ id) = none) :
    getSongTextPaginated w.store id page pageSize = .ok []
    ∧ (getSong w id).1 = .error .notFound := by
  have hfilter : w.store.db.filter (fun r => r.id == id) = [] := by
    rw [List.filter_eq_nil]
    intro a ha
    simpa using hmiss a ha
  constructor
  · simp [getSongTextPaginated, hav, hfilter]
  · have hfind : w.store.db.find? (fun r => r.id == id) = none := by
      rw [List.find?_eq_none]
      intro a ha
      simpa using hmiss a ha
    simp [getSong, hcache, repoGetSong, hav, hfind]

theorem missing_id_empty_result_witness :
    getSongTextPaginated sampleWorld.store "zz" 5 3 = .ok []
    ∧ (getSong sampleWorld "zz").1 = .error .notFound :=
  missing_id_empty_result sampleWorld "zz" 5 3 rfl (by decide) rfl

/-- C2: `GetSong` is cache-aside.  On a cache hit whose payload
deserializes (to a possibly nil `*Song`), it returns that value with the
world unchanged and an empty event trace — no store access.  On a miss
(which in the code also covers cache unavailability) or a deserialization
failure it queries the store: on store success it returns the song and
best-effort writes the marshalled payload with the 10-minute TTL; on any
store error (including `notFound`) it returns that error with the world
unchanged and nothing cached.  Cache operations never contribute an error
to the result. -/
theorem getSong_cache_aside (w : World) (id : String) :
    (∀ payload so, cacheGetOp w.cache ("song:" ++ id) = some payload →
        unmarshalSong payload = some so →
        getSong w id = (.ok so, w, []))
    ∧ ((cacheGetOp w.cache ("song:" ++ id) = none ∨
        (∃ payload, cacheGetOp w.cache ("song:" ++ id) = some payload ∧
          unmarshalSong payload = none)) →
        (∀ s, repoGetSong w.store id = .ok s →
           getSong w id =
             (.ok (some s),
              { w with cache := cacheSetOp w.cache ("song:" ++ id) (marshalSong (some s)) },
              [.storeGet id, .cacheSet ("song:" ++ id) (marshalSong (some s)) cacheTTL]))
        ∧ (∀ e, repoGetSong w.store id = .error e →
           getSong w id = (.error e, w, [.storeGet id]))) := by
  constructor
  · intro payload so hp hso
    simp [getSong, hp, hso]
  · intro hmiss
    constructor
    · intro s hs
      rcases hmiss with hnone | ⟨payload, hp, hun⟩
      · simp [getSong, hnone, hs]
      · simp [getSong, hp, hun, hs]
    · intro e he
      rcases hmiss with hnone | ⟨payload, hp, hun⟩
      · simp [getSong, hnone, he]
      · simp [getSong, hp, hun, he]

theorem getSong_cache_aside_witness :
    getSong sampleWorld "1" =
      (.ok (some sampleSong),
       { sampleWorld with
         cache := cacheSetOp sampleWorld.cache ("song:" ++ "1") (marshalSong (some sampleSong)) },
       [.storeGet "1", .cacheSet ("song:" ++ "1") (marshalSong (some sampleSong)) cacheTTL]) :=
  ((getSong_cache_aside sampleWorld "1").2 (Or.inl rfl)).1 sampleSong rfl

/-- World whose cache holds the JSON literal `null` for key `song:1`. -/
def nullCacheWorld : World :=
  ⟨sampleStore, ⟨fun k => if k = "song:1" then some "null" else none, true⟩⟩

/-- C9: a cached payload that deserializes successfully to an absent Song
(such as the JSON literal `null`) makes `GetSong` return a nil Song with
success: result `ok none`, world unchanged, empty trace (the store is
never consulted), and `null` indeed unmarshals to a nil Song. -/
theorem getSong_nil_payload (w : World) (id payload : String)
    (hp : cacheGetOp w.cache ("song:" ++ id) = some payload)
    (hnil : unmarshalSong payload = some none) :
    (getSong w id).1 = .ok none ∧ (getSong w id).2.1 = w
    ∧ (getSong w id).2.2 = [] ∧ unmarshalSong "null" = some none := by
  simp [getSong, hp, hnil, unmarshal_null]

theorem getSong_nil_payload_witness :
    (getSong nullCacheWorld "1").1 = .ok none
    ∧ (getSong nullCacheWorld "1").2.1 = nullCacheWorld
    ∧ (getSong nullCacheWorld "1").2.2 = []
    ∧ unmarshalSong "null" = some none :=
  getSong_nil_payload nullCacheWorld "1" "null" rfl rfl

/-- C3 counterexample: after a successful `UpdateSong("1", updInput)`,
`GetSong("1")` returns a Song whose ID is the freshly generated
`"song-99"`, which differs both from `updInput.id` (so the result does
not equal the new value in every field) and from the persisted record's
id `"1"` (so the cached/returned Song does not equal the stored one
including its ID). -/
theorem updateSong_then_getSong_id_cex :
    (updateSong sampleWorld "song-99" "1" updInput).1 = none
    ∧ (getSong (updateSong sampleWorld "song-99" "1" updInput).2.1 "1").1
        = .ok (some ⟨"song-99", "G2", "S2", "2021", "T2", "L2"⟩)
    ∧ updInput.id = "u-id"
    ∧ (updateSong sampleWorld "song-99" "1" updInput).2.1.store.db.find?
        (fun r => r.id == "1") = some ⟨"1", "G2", "S2", "2021", "T2", "L2"⟩
    ∧ ("song-99" : String) ≠ "u-id" ∧ ("song-99" : String) ≠ "1" :=
  ⟨rfl, rfl, rfl, rfl, by decide, by decide⟩

/-- C3 as amended: after a successful `UpdateSong(id, newValue)` a
subsequent `GetSong(id)` returns a Song agreeing with `newValue` in group
name, song name, release date, text and link; its ID, however, is either
the ID freshly generated on the update call (when served from the
repopulated cache) or the persisted row's id (when the cache is
unavailable) — in general not `newValue`'s ID. -/
theorem updateSong_then_getSong (w : World) (g id : String) (upd : Song)
    (h : (updateSong w g id upd).1 = none) :
    ∃ s, (getSong (updateSong w g id upd).2.1 id).1 = .ok (some s)
      ∧ s.groupName = upd.groupName ∧ s.songName = upd.songName
      ∧ s.releaseDate = upd.releaseDate ∧ s.text = upd.text ∧ s.link = upd.link
      ∧ (s.id = g ∨ s.id = id) := by
  by_cases hv : upd.groupName = "" ∨ upd.songName = ""
  · simp [updateSong, newSong, hv] at h
  · rcases hu : repoUpdateSong w.store id
        ⟨g, upd.groupName, upd.songName, upd.releaseDate, upd.text, upd.link⟩ with e | st1
    · simp [updateSong, newSong, hv, hu] at h
    · have hav : w.store.available = true := by
        by_contra hav
        simp [repoUpdateSong, hav] at hu
      have hcnt : rowsAffected w.store id ≠ 0 := by
        intro h0
        simp [repoUpdateSong, hav, h0] at hu
      have hst1 : st1 = { w.store with
          db := w.store.db.map fun r =>
            if r.id == id then
              applyUpdate ⟨g, upd.groupName, upd.songName, upd.releaseDate, upd.text, upd.link⟩ r
            else r } := by
        rw [repoUpdateSong, if_pos hav, if_neg hcnt] at hu
        exact (Except.ok.inj hu).symm
      have hw1 : (updateSong w g id upd).2.1 =
          { store := st1,
            cache := cacheSetOp (cacheDelOp w.cache ("song:" ++ id)) ("song:" ++ id)
              (marshalSong (some ⟨g, upd.groupName, upd.songName,
                upd.releaseDate, upd.text, upd.link⟩)) } := by
        simp [updateSong, newSong, hv, hu]
      rw [hw1]
      by_cases hca : w.cache.available = true
      · refine ⟨⟨g, upd.groupName, upd.songName, upd.releaseDate, upd.text, upd.link⟩,
          ?_, by simp, by simp, by simp, by simp, by simp, by simp⟩
        have hget : cacheGetOp
            (cacheSetOp (cacheDelOp w.cache ("song:" ++ id)) ("song:" ++ id)
              (marshalSong (some ⟨g, upd.groupName, upd.songName,
                upd.releaseDate, upd.text, upd.link⟩)))
            ("song:" ++ id)
            = some (marshalSong (some ⟨g, upd.groupName, upd.songName,
                upd.releaseDate, upd.text, upd.link⟩)) := by
          simp [cacheGetOp, cacheSetOp, cacheDelOp, hca]
        simp [getSong, hget, unmarshal_marshal]
      · have hget : cacheGetOp
            (cacheSetOp (cacheDelOp w.cache ("song:" ++ id)) ("song:" ++ id)
              (marshalSong (some ⟨g, upd.groupName, upd.songName,
                upd.releaseDate, upd.text, upd.link⟩)))
            ("song:" ++ id) = none := by
          simp [cacheGetOp, cacheSetOp, cacheDelOp, hca]
        obtain ⟨r, hr, hid, h2, h3, h4, h5, h6⟩ :=
          find?_map_applyUpdate w.store.db id
            ⟨g, upd.groupName, upd.songName, upd.releaseDate, upd.text, upd.link⟩
            (by simpa [rowsAffected] using hcnt)
        refine ⟨r, ?_, h2, h3, h4, h5, h6, Or.inr hid⟩
        have hrepo : repoGetSong st1 id = .ok r := by
          rw [hst1]
          simp only [repoGetSong]
          rw [if_pos (by simpa using hav)]
          simp only [hr]
        simp [getSong, hget, hrepo]

theorem updateSong_then_getSong_witness :
    ∃ s, (getSong (updateSong sampleWorld "song-99" "1" updInput).2.1 "1").1
        = .ok (some s)
      ∧ s.groupName = updInput.groupName ∧ s.songName = updInput.songName
      ∧ s.releaseDate = updInput.releaseDate ∧ s.text = updInput.text
      ∧ s.link = updInput.link ∧ (s.id = "song-99" ∨ s.id = "1") :=
  updateSong_then_getSong sampleWorld "song-99" "1" updInput rfl

/-- C4 counterexample: a successful `DeleteSong("1")` run performs the
store mutation first and the cache invalidation after it — the trace is
`[storeDelete, cacheDel]`, and no cache invalidation occurs before the
store mutation, contradicting the claimed invalidate-then-mutate order. -/
theorem deleteSong_invalidation_order_cex :
    (deleteSong sampleWorld "1").1 = none
    ∧ (deleteSong sampleWorld "1").2.2 = [.storeDelete "1", .cacheDel "song:1"]
    ∧ ¬ occursBefore (deleteSong sampleWorld "1").2.2
        (.cacheDel "song:1") (.storeDelete "1") := by
  refine ⟨rfl, rfl, ?_⟩
  rintro ⟨i, j, hij, hi, hj⟩
  rw [show (deleteSong sampleWorld "1").2.2
      = [.storeDelete "1", .cacheDel "song:1"] from rfl] at hi hj
  have hilt : i < 2 := by
    by_contra hge
    rw [List.get?_eq_none.mpr (by simp; omega)] at hi
    exact Option.noConfusion hi
  have hjlt : j < 2 := by
    by_contra hge
    rw [List.get?_eq_none.mpr (by simp; omega)] at hj
    exact Option.noConfusion hj
  interval_cases i <;> interval_cases j <;> simp_all

/-- C4 as amended: `UpdateSong` invalidates the cache entry before the
store mutation (the first event of every update trace is the `Del`), and
on success repopulates it afterwards; `DeleteSong`, by contrast, performs
the store mutation first and invalidates the entry only after the
mutation succeeds — still before returning success — and performs no
invalidation at all when the mutation fails. -/
theorem invalidation_ordering (w : World) (g id : String) (upd : Song) :
    ((updateSong w g id upd).2.2.head? = some (.cacheDel ("song:" ++ id)))
    ∧ ((updateSong w g id upd).1 = none →
        (updateSong w g id upd).2.2 =
          [.cacheDel ("song:" ++ id), .storeUpdate id,
           .cacheSet ("song:" ++ id)
             (marshalSong (some ⟨g, upd.groupName, upd.songName,
               upd.releaseDate, upd.text, upd.link⟩)) cacheTTL])
    ∧ ((deleteSong w id).1 = none →
        (deleteSong w id).2.2 = [.storeDelete id, .cacheDel ("song:" ++ id)])
    ∧ ((deleteSong w id).1 ≠ none →
        (deleteSong w id).2.2 = [.storeDelete id]) := by
  have hdel : ((deleteSong w id).1 = none →
        (deleteSong w id).2.2 = [.storeDelete id, .cacheDel ("song:" ++ id)])
      ∧ ((deleteSong w id).1 ≠ none →
        (deleteSong w id).2.2 = [.storeDelete id]) := by
    rcases hd : repoDeleteSong w.store id with e | st1 <;> simp [deleteSong, hd]
  refine ⟨?_, ?_, hdel.1, hdel.2⟩ <;>
  · by_cases hv : upd.groupName = "" ∨ upd.songName = ""
    · simp [updateSong, newSong, hv]
    · rcases hu : repoUpdateSong w.store id
          ⟨g, upd.groupName, upd.songName, upd.releaseDate, upd.text, upd.link⟩ with e | st1 <;>
      simp [updateSong, newSong, hv, hu]

theorem invalidation_ordering_witness :
    (updateSong sampleWorld "song-7" "1" updInput).2.2 =
      [.cacheDel ("song:" ++ "1"), .storeUpdate "1",
       .cacheSet ("song:" ++ "1")
         (marshalSong (some ⟨"song-7", updInput.groupName, updInput.songName,
           updInput.releaseDate, updInput.text, updInput.link⟩)) cacheTTL]
    ∧ (deleteSong sampleWorld "1").2.2 = [.storeDelete "1", .cacheDel ("song:" ++ "1")] :=
  ⟨(invalidation_ordering sampleWorld "song-7" "1" updInput).2.1 rfl,
   (invalidation_ordering sampleWorld "song-7" "1" updInput).2.2.1 rfl⟩

/-- C7: the repository `Update`/`Delete` fail with `notFound` exactly when
the target id matches zero rows (store reachable); and on a nonexistent
id, `UpdateSong` (with a valid payload) returns `notFound` with trace
`[cacheDel, storeUpdate]` — the idempotent invalidation attempt and the
failed mutation, never a repopulating `cacheSet` — while `DeleteSong`
returns `notFound` having touched the cache not at all. -/
theorem repo_notFound_iff_zero_rows (st : StoreState) (id2 : String) (song : Song)
    (w : World) (g id : String) (upd : Song)
    (hst : st.available = true)
    (hw : w.store.available = true)
    (hmiss : rowsAffected w.store id = 0)
    (hg : upd.groupName ≠ "") (hs : upd.songName ≠ "") :
    (repoUpdateSong st id2 song = .error .notFound ↔ rowsAffected st id2 = 0)
    ∧ (repoDeleteSong st id2 = .error .notFound ↔ rowsAffected st id2 = 0)
    ∧ (updateSong w g id upd).1 = some .notFound
    ∧ (updateSong w g id upd).2.2 = [.cacheDel ("song:" ++ id), .storeUpdate id]
    ∧ (deleteSong w id).1 = some .notFound
    ∧ (deleteSong w id).2.2 = [.storeDelete id] := by
  have hv : ¬(upd.groupName = "" ∨ upd.songName = "") := by
    rintro (h | h)
    · exact hg h
    · exact hs h
  refine ⟨?_, ?_, ?_, ?_, ?_, ?_⟩
  · by_cases h0 : rowsAffected st id2 = 0 <;> simp [repoUpdateSong, hst, h0]
  · by_cases h0 : rowsAffected st id2 = 0 <;> simp [repoDeleteSong, hst, h0]
  all_goals
    simp [updateSong, deleteSong, newSong, hv, repoUpdateSong, repoDeleteSong, hw, hmiss]

theorem repo_notFound_iff_zero_rows_witness :
    (repoUpdateSong sampleStore "1" updInput = .error .notFound
        ↔ rowsAffected sampleStore "1" = 0)
    ∧ (repoDeleteSong sampleStore "1" = .error .notFound
        ↔ rowsAffected sampleStore "1" = 0)
    ∧ (updateSong sampleWorld "song-3" "zz" updInput).1 = some .notFound
    ∧ (updateSong sampleWorld "song-3" "zz" updInput).2.2
        = [.cacheDel ("song:" ++ "zz"), .storeUpdate "zz"]
    ∧ (deleteSong sampleWorld "zz").1 = some .notFound
    ∧ (deleteSong sampleWorld "zz").2.2 = [.storeDelete "zz"] :=
  repo_notFound_iff_zero_rows sampleStore "1" updInput sampleWorld "song-3" "zz"
    updInput rfl rfl rfl (by decide) (by decide)

/-- C10: `UpdateSong` issues the cache `Del` before validating the input
or contacting the store (it is the first event of every trace), so after
any failing call with a reachable cache the entry for the id has been
removed and nothing repopulates it; and when the failure is validation
(empty group or song name) the store is untouched and the `Del` is the
only event. -/
theorem updateSong_failure_cache_cleared (w : World) (g id : String) (upd : Song)
    (hc : w.cache.available = true)
    (hf : (updateSong w g id upd).1 ≠ none) :
    (updateSong w g id upd).2.1.cache.entries ("song:" ++ id) = none
    ∧ (updateSong w g id upd).2.2.head? = some (.cacheDel ("song:" ++ id))
    ∧ (∀ p n, Event.cacheSet ("song:" ++ id) p n ∉ (updateSong w g id upd).2.2)
    ∧ ((upd.groupName = "" ∨ upd.songName = "") →
        (updateSong w g id upd).2.1.store = w.store
        ∧ (updateSong w g id upd).2.2 = [.cacheDel ("song:" ++ id)]) := by
  by_cases hv : upd.groupName = "" ∨ upd.songName = ""
  · simp [updateSong, newSong, hv, cacheDelOp, hc]
  · rcases hu : repoUpdateSong w.store id
        ⟨g, upd.groupName, upd.songName, upd.releaseDate, upd.text, upd.link⟩ with e | st1
    · simp [updateSong, newSong, hv, hu, cacheDelOp, hc]
    · exfalso
      apply hf
      simp [updateSong, newSong, hv, hu]

/-- Invalid update payload (empty group name), used as a C10 witness
input. -/
def badUpd : Song := ⟨"u-id", "", "S2", "2021", "T2", "L2"⟩

/-- World like `sampleWorld` but whose cache already holds a payload for
`song:1`, so the C10 witness shows an actual removal. -/
def warmCacheWorld : World :=
  ⟨sampleStore, ⟨fun k => if k = "song:1" then some "stale" else none, true⟩⟩

theorem updateSong_failure_cache_cleared_witness :
    warmCacheWorld.cache.entries "song:1" = some "stale"
    ∧ (updateSong warmCacheWorld "song-5" "1" badUpd).2.1.cache.entries ("song:" ++ "1") = none
    ∧ (updateSong warmCacheWorld "song-5" "1" badUpd).2.1.store = warmCacheWorld.store
    ∧ (updateSong warmCacheWorld "song-5" "1" badUpd).2.2 = [.cacheDel ("song:" ++ "1")] := by
  have h := updateSong_failure_cache_cleared warmCacheWorld "song-5" "1" badUpd rfl (by decide)
  exact ⟨rfl, h.1, (h.2.2.2 (Or.inl rfl)).1, (h.2.2.2 (Or.inl rfl)).2⟩
